import Mathlib

/-
  Verification of the name-resolution pipeline and UI state machine of the
  one-h-whack file renamer (src/main.go), as a shallow embedding in Lean 4.

  Conventions of the embedding:
  * Go strings are Lean `String`s; `len` on a Go string is the UTF-8 byte
    count, embedded as `utf8Len`.
  * The global translation cache (`translationCache`, a Go map guarded by a
    RWMutex) is embedded as an association list threaded explicitly; `set`
    prepends and `get` takes the first hit, which gives the map's
    overwrite-on-set / read-latest semantics.
  * The remote translation collaborator (gt.TranslateWithParam) is an
    external dependency; it is a parameter `remote : String → RemoteOutcome`
    whose outcomes separate success, a returned error, and a panic of the
    call (both fault shapes are recovered at the same boundary in the code).
  * `translateText` carries two instrumentation fields in its result,
    `remoteCalls` (the texts passed to the remote collaborator, in order)
    and `dictQueries` (how many times the static dictionary was consulted),
    so that claims of the form "without invoking the remote lookup" are
    statable; they do not affect the translated result.
  * The bubbles `list.Model` widget is external; the embedding keeps the
    slice of items, the cursor, and the title, which is the interface the
    repository code uses (Items, SetItems, SelectedItem, ResetSelected,
    Title). `SelectedItem` returning `nil` (no selectable row: empty or
    fully filtered listing) is `selectedItem = none`.
  * The filesystem is a parameter `Fs`; `none` is an os.ReadDir error.
  * tea.Cmd values are embedded as lists of `Cmd` tags (`tea.Batch cmds...`
    is the list, the nil command is `[]`).
-/

set_option autoImplicit false

namespace OneHWhack

/-- Embeds the Go `translationCache` struct: a key→value store with
overwrite-on-set semantics, represented as an association list where `set`
prepends and `get` returns the first (latest) binding. -/
structure translationCache where
  entries : List (String × String)
deriving DecidableEq, Repr

/-- Embeds `(*translationCache).Get`: lookup of the latest binding. -/
def translationCache.get (c : translationCache) (key : String) : Option String :=
  (c.entries.find? (fun p => p.1 == key)).map (fun p => p.2)

/-- Embeds `(*translationCache).Set`: bind `key` to `val`, shadowing any
earlier binding. -/
def translationCache.set (c : translationCache) (key val : String) : translationCache :=
  ⟨(key, val) :: c.entries⟩

/-- Embeds the `staticTranslations` map literal of src/main.go. The Go map
has pairwise distinct keys, so the list order only matters for the
case-insensitive scan, whose result is order-independent because no two keys
are case-insensitively equal. -/
def staticTranslations : List (String × String) :=
  [("Desktop", "Bureau"),
   ("Documents", "Documents"),
   ("Downloads", "Téléchargements"),
   ("Pictures", "Images"),
   ("Music", "Musique"),
   ("Videos", "Vidéos"),
   ("Home", "Accueil"),
   ("Folder", "Dossier"),
   ("File", "Fichier"),
   ("Public", "Public"),
   ("Templates", "Modèles"),
   ("Library", "Bibliothèque"),
   ("Applications", "Applications"),
   ("Movies", "Films"),
   ("bin", "binaire"),
   ("src", "source"),
   ("pkg", "paquets"),
   ("tmp", "temporaire"),
   ("opt", "optionnel"),
   ("usr", "utilisateur"),
   ("var", "variable"),
   ("etc", "configuration")]

/-- Embeds the exact map lookup `staticTranslations[text]`. -/
def staticLookup (text : String) : Option String :=
  (staticTranslations.find? (fun p => p.1 == text)).map (fun p => p.2)

/-- Go's simple case folding (`strings.EqualFold`), restricted to the
comparisons that occur here: one side is always an ASCII dictionary key, so
folding lowers ASCII letters and sends the two non-ASCII runes whose simple
fold meets ASCII (the Kelvin sign and the long s) to `k` and `s`. -/
def goFoldChar (ch : Char) : Char :=
  if ch = Char.ofNat 0x212A then 'k'
  else if ch = Char.ofNat 0x17F then 's'
  else if 'A' ≤ ch ∧ ch ≤ 'Z' then Char.ofNat (ch.toNat + 32)
  else ch

/-- Embeds `strings.EqualFold` for the dictionary's ASCII keys. -/
def equalFold (a b : String) : Bool :=
  a.data.map goFoldChar == b.data.map goFoldChar

/-- Embeds the case-insensitive scan
`for key, val := range staticTranslations { if strings.EqualFold(key, text) }`.
Map range order is unspecified in Go, but at most one key can match, so the
scan in declaration order is faithful. -/
def staticLookupFold (text : String) : Option String :=
  (staticTranslations.find? (fun p => equalFold p.1 text)).map (fun p => p.2)

/-- Scans a reversed character list (the string read from its end) for the
extension: `some (extRev, stemRev)` where `extRev` is the reversed extension
including its dot, stopping at a path separator, as `filepath.Ext` does. -/
def findExtRev : List Char → Option (List Char × List Char)
  | [] => none
  | ch :: rest =>
    if ch = '.' then some (['.'], rest)
    else if ch = '/' then none
    else (findExtRev rest).map (fun p => (ch :: p.1, p.2))

/-- Embeds `filepath.Ext text`: the suffix starting at the final dot (empty
when there is no dot in the final path element). -/
def filepathExt (text : String) : String :=
  match findExtRev text.data.reverse with
  | some (e, _) => ⟨e.reverse⟩
  | none => ""

/-- Embeds `strings.TrimSuffix(text, filepath.Ext(text))`: the stem before
the final dot (the whole string when there is no extension). -/
def trimExt (text : String) : String :=
  match findExtRev text.data.reverse with
  | some (_, st) => ⟨st.reverse⟩
  | none => text

/-- Go `len` of a string: its UTF-8 byte count. -/
def utf8Len (s : String) : Nat :=
  s.data.foldl (fun n ch => n + ch.utf8Size) 0

/-- Embeds `containsLetters`: does the string contain an ASCII letter. -/
def containsLetters (s : String) : Bool :=
  s.data.any (fun r => decide (('a' ≤ r ∧ r ≤ 'z') ∨ ('A' ≤ r ∧ r ≤ 'Z')))

/-- Outcome of one invocation of the remote translation collaborator:
success with the returned `result.Text`, a returned non-nil error, or a
panic of the call (recovered by the deferred handler). -/
inductive RemoteOutcome where
  | ok (text : String)
  | failed
  | crashed
deriving DecidableEq, Repr

/-- Result of `translateText`: the returned string and error, the cache
after the call, plus instrumentation (`remoteCalls`: the texts passed to
the remote collaborator; `dictQueries`: how many times the static
dictionary was consulted). -/
structure TResult where
  text : String
  err : Option String
  cache : translationCache
  remoteCalls : List String
  dictQueries : Nat
deriving DecidableEq, Repr

/-- Embeds `translateText` of src/main.go: cache hit, exact static hit,
case-insensitive static hit, short-stem skip, letterless-stem skip, then
the recovered remote call. Every Go return site returns a nil error, so
`err` is `none` in every branch. -/
def translateText (remote : String → RemoteOutcome) (c : translationCache)
    (text : String) : TResult :=
  match c.get text with
  | some tr => ⟨tr, none, c, [], 0⟩
  | none =>
    match staticLookup text with
    | some tr => ⟨tr, none, c.set text tr, [], 1⟩
    | none =>
      match staticLookupFold text with
      | some val => ⟨val, none, c.set text val, [], 1⟩
      | none =>
        let nameWithoutExt := trimExt text
        let ext := filepathExt text
        if utf8Len nameWithoutExt ≤ 1 then
          ⟨text, none, c.set text text, [], 1⟩
        else if ! containsLetters nameWithoutExt then
          ⟨text, none, c.set text text, [], 1⟩
        else
          match remote nameWithoutExt with
          | .ok t =>
            let translated := t ++ ext
            ⟨translated, none, c.set text translated, [nameWithoutExt], 1⟩
          | .failed => ⟨text, none, c.set text text, [nameWithoutExt], 1⟩
          | .crashed => ⟨text, none, c.set text text, [nameWithoutExt], 1⟩

/-- Embeds the `item` struct shown in the listing. -/
structure item where
  title : String
  translation : String
  path : String
  isDir : Bool
  translating : Bool
deriving DecidableEq, Repr

/-- The interface of the external bubbles list widget that the repository
code uses: the item slice, the cursor, and the title. -/
structure listModel where
  items : List item
  cursor : Nat
  title : String
deriving DecidableEq, Repr

/-- `list.Model.SelectedItem`: the item under the cursor, or `none` when no
row is selectable (empty or fully filtered listing, cursor out of range). -/
def listModel.selectedItem (l : listModel) : Option item :=
  l.items.get? l.cursor

/-- Embeds the `viewMode` enum. -/
inductive viewMode where
  | normalMode
  | confirmRenameMode
deriving DecidableEq, Repr

/-- Embeds the `model` struct (the fields the state machine reads or
writes; the unused `err` field and the external widget internals are
omitted; the textinput widget is kept as its value plus its focus flag). -/
structure model where
  list : listModel
  currentPath : String
  mode : viewMode
  confirmInput : String
  confirmFocused : Bool
  itemToRename : item
  proposedName : String
  statusMessage : String
  quitting : Bool
deriving DecidableEq, Repr

/-- The messages the `Update` function dispatches on (tea.WindowSizeMsg only
resizes the external widget and is omitted). Key messages carry
`msg.String()`. -/
inductive Msg where
  | translationMsg (name : String) (translation : String)
  | renameCompleteMsg (oldPath newPath : String) (success : Bool) (errMsg : String)
  | keyMsg (key : String)
deriving DecidableEq, Repr

/-- The tea.Cmd values the state machine can emit; a tea.Batch is a list
and the nil command is the empty list. -/
inductive Cmd where
  | translateName (name : String)
  | renameFile (oldPath newPath : String)
  | blink
  | quit
deriving DecidableEq, Repr

/-- One os.DirEntry as the filesystem collaborator reports it. -/
structure dirEntry where
  name : String
  isDir : Bool
deriving DecidableEq, Repr

/-- The filesystem collaborator: `none` is an os.ReadDir error. -/
def Fs : Type := String → Option (List dirEntry)

/-- Does the name start with the hidden-file marker
(`strings.HasPrefix(entry.Name(), ".")`). -/
def isHidden (s : String) : Bool :=
  match s.data with
  | ch :: _ => ch = '.'
  | [] => false

/-- The type tag used in item descriptions. -/
def typeStrOf (isDir : Bool) : String :=
  if isDir then "Dossier" else "Fichier"

/-- `filepath.Join path name` for a clean `path` and a bare `name`. -/
def pathJoin (a b : String) : String := a ++ "/" ++ b

/-- Index of the last occurrence of a character. -/
def lastIdxOf (ch : Char) : List Char → Option Nat
  | [] => none
  | x :: rest =>
    match lastIdxOf ch rest with
    | some i => some (i + 1)
    | none => if x = ch then some 0 else none

/-- `filepath.Dir` for cleaned paths: everything before the last separator,
`/` at the root, `.` when there is no separator. -/
def filepathDir (p : String) : String :=
  match lastIdxOf '/' p.data with
  | none => "."
  | some 0 => "/"
  | some i => ⟨p.data.take i⟩

/-- `filepath.Base` for cleaned non-root paths: everything after the last
separator. -/
def filepathBase (p : String) : String :=
  match lastIdxOf '/' p.data with
  | none => p
  | some i => ⟨p.data.drop (i + 1)⟩

/-- Embeds the entry loop of `getDirectoryItems`: skip hidden names, build
an item per entry (cached translation shown when present, placeholder plus
a queued translation job when absent). -/
def buildItems (c : translationCache) (path : String) :
    List dirEntry → List item × List Cmd
  | [] => ([], [])
  | e :: rest =>
    let (its, cmds) := buildItems c path rest
    if isHidden e.name then (its, cmds)
    else
      let typeStr := typeStrOf e.isDir
      match c.get e.name with
      | some cached =>
        ({ title := e.name, translation := typeStr ++ " → " ++ cached,
           path := pathJoin path e.name, isDir := e.isDir,
           translating := false } :: its, cmds)
      | none =>
        ({ title := e.name, translation := typeStr ++ " → ...",
           path := pathJoin path e.name, isDir := e.isDir,
           translating := true } :: its, Cmd.translateName e.name :: cmds)

/-- Embeds `getDirectoryItems`: `(nil, nil)` when the directory cannot be
read, otherwise the built items and queued translation jobs. -/
def getDirectoryItems (fs : Fs) (c : translationCache) (path : String) :
    List item × List Cmd :=
  match fs path with
  | none => ([], [])
  | some entries => buildItems c path entries

/-- Embeds `model.navigateToDirectory`: re-list at `path`, retitle, reset
the selection, clear the status message, and batch the pending jobs. -/
def navigateToDirectory (fs : Fs) (c : translationCache) (m : model)
    (path : String) : model × List Cmd :=
  let (items, cmds) := getDirectoryItems fs c path
  ({ m with
      currentPath := path,
      list := { items := items, cursor := 0,
                title := "Navigateur de fichiers - " ++ path },
      statusMessage := "" }, cmds)

/-- Embeds the `translationMsg` loop of `Update`: rewrite the first item
whose title matches (the Go loop breaks after it), clearing its resolving
flag. -/
def applyTranslation (name translation : String) : List item → List item
  | [] => []
  | itm :: rest =>
    if itm.title = name then
      { itm with translation := typeStrOf itm.isDir ++ " → " ++ translation,
                 translating := false } :: rest
    else itm :: applyTranslation name translation rest

/-- Embeds `model.Update` of src/main.go for the three message kinds the
state machine dispatches on. The global cache is passed in because
`getDirectoryItems` and the enter handler read it; `Update` itself never
writes it. Branches that only forward a key to an external widget (the
textinput editor, the list's own navigation and filtering) leave the
embedded fields unchanged and emit no job. -/
def update (fs : Fs) (c : translationCache) (m : model) (msg : Msg) :
    model × List Cmd :=
  match msg with
  | .translationMsg name translation =>
    ({ m with list := { m.list with
        items := applyTranslation name translation m.list.items } }, [])
  | .renameCompleteMsg oldPath newPath success errMsg =>
    let m1 := { m with mode := viewMode.normalMode }
    if success then
      let m2 := { m1 with statusMessage :=
        "✓ Renommé: " ++ filepathBase oldPath ++ " → " ++ filepathBase newPath }
      navigateToDirectory fs c m2 m2.currentPath
    else
      ({ m1 with statusMessage := "✗ Erreur: " ++ errMsg }, [])
  | .keyMsg k =>
    if m.mode = viewMode.confirmRenameMode then
      if k = "esc" then
        ({ m with mode := viewMode.normalMode, statusMessage := "" }, [])
      else if k = "enter" then
        let newName := if m.confirmInput = "" then m.proposedName else m.confirmInput
        let oldPath := m.itemToRename.path
        let newPath := pathJoin (filepathDir oldPath) newName
        ({ m with statusMessage := "Renommage en cours..." },
         [Cmd.renameFile oldPath newPath])
      else
        (m, [])
    else
      if k = "ctrl+c" ∨ k = "q" then
        ({ m with quitting := true }, [Cmd.quit])
      else if k = "left" then
        let parentPath := filepathDir m.currentPath
        if parentPath ≠ m.currentPath then
          navigateToDirectory fs c m parentPath
        else (m, [])
      else if k = "enter" then
        match m.list.selectedItem with
        | none => (m, [])
        | some selectedItem =>
          let translation := (c.get selectedItem.title).getD ""
          if translation = "" ∨ translation = selectedItem.title then
            ({ m with statusMessage := "✗ Pas de traduction disponible" }, [])
          else
            ({ m with mode := viewMode.confirmRenameMode,
                      itemToRename := selectedItem,
                      proposedName := translation,
                      confirmInput := translation,
                      confirmFocused := true,
                      statusMessage := "" }, [Cmd.blink])
      else if k = "right" then
        match m.list.selectedItem with
        | none => (m, [])
        | some selectedItem =>
          if selectedItem.isDir then
            navigateToDirectory fs c m selectedItem.path
          else (m, [])
      else
        (m, [])

/-- A remote collaborator that always succeeds with the text "abc". -/
def remoteAbc : String → RemoteOutcome := fun _ => RemoteOutcome.ok "abc"

/-- A remote collaborator that always succeeds with the text "rapport". -/
def remoteRapport : String → RemoteOutcome := fun _ => RemoteOutcome.ok "rapport"

/-- A remote collaborator whose call always panics. -/
def remoteCrash : String → RemoteOutcome := fun _ => RemoteOutcome.crashed

/-- The empty cache, as at process start. -/
def emptyCache : translationCache := ⟨[]⟩

/-- A cache holding translations for the two entries of `fsHome`. -/
def cacheHome : translationCache :=
  ⟨[("report.txt", "rapport.txt"), ("src", "source")]⟩

/-- A filesystem with one readable directory, `/home`, holding a file, a
subdirectory and a hidden entry; every other path is unreadable. -/
def fsHome : Fs := fun p =>
  if p = "/home" then
    some [⟨"report.txt", false⟩, ⟨"src", true⟩, ⟨".git", true⟩]
  else none

/-- A filesystem on which every directory read fails. -/
def fsNone : Fs := fun _ => none

/-- The listing item for `/home/report.txt`. -/
def itemReport : item :=
  { title := "report.txt", translation := "Fichier → rapport.txt",
    path := "/home/report.txt", isDir := false, translating := false }

/-- The listing item for `/home/src`. -/
def itemSrc : item :=
  { title := "src", translation := "Dossier → source",
    path := "/home/src", isDir := true, translating := false }

/-- A browsing model showing `/home` with the file item selected. -/
def modelHome : model :=
  { list := { items := [itemReport, itemSrc], cursor := 0,
              title := "Navigateur de fichiers - /home" },
    currentPath := "/home", mode := viewMode.normalMode,
    confirmInput := "", confirmFocused := false,
    itemToRename := itemReport, proposedName := "",
    statusMessage := "", quitting := false }

/-- The model of `modelHome` mid-rename, waiting for the rename result. -/
def modelConfirm : model :=
  { modelHome with
      mode := viewMode.confirmRenameMode,
      confirmInput := "rapport.txt",
      proposedName := "rapport.txt",
      statusMessage := "Renommage en cours..." }

/-- A browsing model whose listing is empty (nothing selectable). -/
def modelEmpty : model :=
  { modelHome with list := { items := [], cursor := 0,
                             title := "Navigateur de fichiers - /home" } }

/-- A browsing model with the non-directory item selected. -/
def modelFileSel : model :=
  { modelHome with list := { modelHome.list with cursor := 0 } }

end OneHWhack

namespace OneHWhack

theorem translateText_cacheHit {remote : String → RemoteOutcome}
    {c : translationCache} {text v : String} (h : c.get text = some v) :
    translateText remote c text = ⟨v, none, c, [], 0⟩ := by
  unfold translateText
  rw [h]

theorem translateText_staticHit {remote : String → RemoteOutcome}
    {c : translationCache} {text v : String}
    (h1 : c.get text = none) (h2 : staticLookup text = some v) :
    translateText remote c text = ⟨v, none, c.set text v, [], 1⟩ := by
  unfold translateText
  rw [h1, h2]

theorem translateText_foldHit {remote : String → RemoteOutcome}
    {c : translationCache} {text v : String}
    (h1 : c.get text = none) (h2 : staticLookup text = none)
    (h3 : staticLookupFold text = some v) :
    translateText remote c text = ⟨v, none, c.set text v, [], 1⟩ := by
  unfold translateText
  rw [h1, h2, h3]

theorem translateText_shortStem {remote : String → RemoteOutcome}
    {c : translationCache} {text : String}
    (h1 : c.get text = none) (h2 : staticLookup text = none)
    (h3 : staticLookupFold text = none)
    (h4 : utf8Len (trimExt text) ≤ 1) :
    translateText remote c text = ⟨text, none, c.set text text, [], 1⟩ := by
  unfold translateText
  rw [h1, h2, h3]
  simp only [if_pos h4]

theorem translateText_noLetters {remote : String → RemoteOutcome}
    {c : translationCache} {text : String}
    (h1 : c.get text = none) (h2 : staticLookup text = none)
    (h3 : staticLookupFold text = none)
    (h4 : ¬ utf8Len (trimExt text) ≤ 1)
    (h5 : containsLetters (trimExt text) = false) :
    translateText remote c text = ⟨text, none, c.set text text, [], 1⟩ := by
  unfold translateText
  rw [h1, h2, h3]
  simp only [if_neg h4, h5, Bool.not_false, if_pos]

theorem translateText_remoteOk {remote : String → RemoteOutcome}
    {c : translationCache} {text t : String}
    (h1 : c.get text = none) (h2 : staticLookup text = none)
    (h3 : staticLookupFold text = none)
    (h4 : ¬ utf8Len (trimExt text) ≤ 1)
    (h5 : containsLetters (trimExt text) = true)
    (h6 : remote (trimExt text) = RemoteOutcome.ok t) :
    translateText remote c text =
      ⟨t ++ filepathExt text, none, c.set text (t ++ filepathExt text),
       [trimExt text], 1⟩ := by
  unfold translateText
  rw [h1, h2, h3]
  rw [if_neg h4]
  simp only [h5, Bool.not_true, h6]
  simp

theorem translateText_remoteFault {remote : String → RemoteOutcome}
    {c : translationCache} {text : String}
    (h1 : c.get text = none) (h2 : staticLookup text = none)
    (h3 : staticLookupFold text = none)
    (h4 : ¬ utf8Len (trimExt text) ≤ 1)
    (h5 : containsLetters (trimExt text) = true)
    (h6 : remote (trimExt text) = RemoteOutcome.failed
          ∨ remote (trimExt text) = RemoteOutcome.crashed) :
    translateText remote c text =
      ⟨text, none, c.set text text, [trimExt text], 1⟩ := by
  unfold translateText
  rw [h1, h2, h3]
  rcases h6 with h6 | h6
  all_goals rw [if_neg h4]
  all_goals simp only [h5, Bool.not_true, h6]
  all_goals simp

theorem get_set_self (c : translationCache) (k v : String) :
    (c.set k v).get k = some v := by
  simp [translationCache.get, translationCache.set, List.find?]

theorem translateText_caches (remote : String → RemoteOutcome)
    (c : translationCache) (text : String) :
    (translateText remote c text).cache.get text
      = some (translateText remote c text).text := by
  cases hc : c.get text with
  | some v => rw [translateText_cacheHit hc]; exact hc
  | none =>
    cases hs : staticLookup text with
    | some v => rw [translateText_staticHit hc hs]; exact get_set_self c text v
    | none =>
      cases hf : staticLookupFold text with
      | some v => rw [translateText_foldHit hc hs hf]; exact get_set_self c text v
      | none =>
        by_cases h4 : utf8Len (trimExt text) ≤ 1
        · rw [translateText_shortStem hc hs hf h4]; exact get_set_self c text text
        · cases h5 : containsLetters (trimExt text) with
          | false =>
            rw [translateText_noLetters hc hs hf h4 h5]
            exact get_set_self c text text
          | true =>
            cases h6 : remote (trimExt text) with
            | ok t =>
              rw [translateText_remoteOk hc hs hf h4 h5 h6]
              exact get_set_self c text _
            | failed =>
              rw [translateText_remoteFault hc hs hf h4 h5 (Or.inl h6)]
              exact get_set_self c text text
            | crashed =>
              rw [translateText_remoteFault hc hs hf h4 h5 (Or.inr h6)]
              exact get_set_self c text text

theorem remoteCalls_spec (remote : String → RemoteOutcome)
    (c : translationCache) (text : String) :
    (translateText remote c text).remoteCalls = []
    ∨ (translateText remote c text).remoteCalls = [trimExt text] := by
  cases hc : c.get text with
  | some v => rw [translateText_cacheHit hc]; exact Or.inl rfl
  | none =>
    cases hs : staticLookup text with
    | some v => rw [translateText_staticHit hc hs]; exact Or.inl rfl
    | none =>
      cases hf : staticLookupFold text with
      | some v => rw [translateText_foldHit hc hs hf]; exact Or.inl rfl
      | none =>
        by_cases h4 : utf8Len (trimExt text) ≤ 1
        · rw [translateText_shortStem hc hs hf h4]; exact Or.inl rfl
        · cases h5 : containsLetters (trimExt text) with
          | false =>
            rw [translateText_noLetters hc hs hf h4 h5]; exact Or.inl rfl
          | true =>
            cases h6 : remote (trimExt text) with
            | ok t =>
              rw [translateText_remoteOk hc hs hf h4 h5 h6]; exact Or.inr rfl
            | failed =>
              rw [translateText_remoteFault hc hs hf h4 h5 (Or.inl h6)]
              exact Or.inr rfl
            | crashed =>
              rw [translateText_remoteFault hc hs hf h4 h5 (Or.inr h6)]
              exact Or.inr rfl

theorem translateText_err_none (remote : String → RemoteOutcome)
    (c : translationCache) (text : String) :
    (translateText remote c text).err = none := by
  cases hc : c.get text with
  | some v => rw [translateText_cacheHit hc]
  | none =>
    cases hs : staticLookup text with
    | some v => rw [translateText_staticHit hc hs]
    | none =>
      cases hf : staticLookupFold text with
      | some v => rw [translateText_foldHit hc hs hf]
      | none =>
        by_cases h4 : utf8Len (trimExt text) ≤ 1
        · rw [translateText_shortStem hc hs hf h4]
        · cases h5 : containsLetters (trimExt text) with
          | false => rw [translateText_noLetters hc hs hf h4 h5]
          | true =>
            cases h6 : remote (trimExt text) with
            | ok t => rw [translateText_remoteOk hc hs hf h4 h5 h6]
            | failed => rw [translateText_remoteFault hc hs hf h4 h5 (Or.inl h6)]
            | crashed => rw [translateText_remoteFault hc hs hf h4 h5 (Or.inr h6)]

/-- C1: resolution proceeds in order — cache hit, exact static hit,
case-insensitive static hit, untranslatable-stem check (stem byte length
at most 1, or no ASCII letter, after stripping the substring from the last
dot), then remote lookup — each step short-circuiting: the first step that
applies determines the returned value, every step past the first caches its
result under the queried name (so after every call the cache maps the name
to the returned value), and the function never fails (the returned Go error
is nil in every branch). -/
theorem translateText_resolution_order (remote : String → RemoteOutcome)
    (c : translationCache) (text : String) :
    (translateText remote c text).err = none
    ∧ (translateText remote c text).cache.get text
        = some (translateText remote c text).text
    ∧ (∀ v, c.get text = some v →
        translateText remote c text = ⟨v, none, c, [], 0⟩)
    ∧ (c.get text = none → ∀ v, staticLookup text = some v →
        translateText remote c text = ⟨v, none, c.set text v, [], 1⟩)
    ∧ (c.get text = none → staticLookup text = none →
        ∀ v, staticLookupFold text = some v →
        translateText remote c text = ⟨v, none, c.set text v, [], 1⟩)
    ∧ (c.get text = none → staticLookup text = none →
        staticLookupFold text = none →
        (utf8Len (trimExt text) ≤ 1 ∨ containsLetters (trimExt text) = false) →
        translateText remote c text = ⟨text, none, c.set text text, [], 1⟩)
    ∧ (c.get text = none → staticLookup text = none →
        staticLookupFold text = none →
        ¬ utf8Len (trimExt text) ≤ 1 → containsLetters (trimExt text) = true →
        (translateText remote c text).remoteCalls = [trimExt text]
        ∧ (∀ t, remote (trimExt text) = RemoteOutcome.ok t →
            translateText remote c text =
              ⟨t ++ filepathExt text, none,
               c.set text (t ++ filepathExt text), [trimExt text], 1⟩)
        ∧ ((remote (trimExt text) = RemoteOutcome.failed
            ∨ remote (trimExt text) = RemoteOutcome.crashed) →
            translateText remote c text =
              ⟨text, none, c.set text text, [trimExt text], 1⟩)) := by
  refine ⟨translateText_err_none remote c text, translateText_caches remote c text,
    ?_, ?_, ?_, ?_, ?_⟩
  · intro v hv
    exact translateText_cacheHit hv
  · intro h1 v h2
    exact translateText_staticHit h1 h2
  · intro h1 h2 v h3
    exact translateText_foldHit h1 h2 h3
  · intro h1 h2 h3 h4
    rcases h4 with h4 | h4
    · exact translateText_shortStem h1 h2 h3 h4
    · by_cases hl : utf8Len (trimExt text) ≤ 1
      · exact translateText_shortStem h1 h2 h3 hl
      · exact translateText_noLetters h1 h2 h3 hl h4
  · intro h1 h2 h3 h4 h5
    refine ⟨?_, ?_, ?_⟩
    · cases h6 : remote (trimExt text) with
      | ok t => rw [translateText_remoteOk h1 h2 h3 h4 h5 h6]
      | failed => rw [translateText_remoteFault h1 h2 h3 h4 h5 (Or.inl h6)]
      | crashed => rw [translateText_remoteFault h1 h2 h3 h4 h5 (Or.inr h6)]
    · intro t h6
      exact translateText_remoteOk h1 h2 h3 h4 h5 h6
    · intro h6
      exact translateText_remoteFault h1 h2 h3 h4 h5 h6

/-- Witness for C1: resolving "report.txt" from the empty cache against a
remote that answers "rapport" goes through the remote step, re-appends the
extension, and caches the result. -/
theorem translateText_resolution_order_witness :
    translateText remoteRapport emptyCache "report.txt" =
      ⟨"rapport.txt", none,
       translationCache.set emptyCache "report.txt" "rapport.txt",
       ["report"], 1⟩ := by
  have h := (translateText_resolution_order remoteRapport emptyCache
    "report.txt").2.2.2.2.2.2
  have h5 := (h rfl rfl rfl (by decide) (by decide)).2.1 "rapport" rfl
  rw [h5]
  decide

/-- C2: for a name that reaches the remote-lookup step, any fault of the
remote call — a returned error or a panic of the call — is contained: the
resolver returns the original name, reports no error, and caches the
original name mapped to itself (not a sentinel error value). -/
theorem remote_fault_contained (remote : String → RemoteOutcome)
    (c : translationCache) (text : String)
    (h1 : c.get text = none) (h2 : staticLookup text = none)
    (h3 : staticLookupFold text = none)
    (h4 : ¬ utf8Len (trimExt text) ≤ 1)
    (h5 : containsLetters (trimExt text) = true)
    (h6 : remote (trimExt text) = RemoteOutcome.failed
          ∨ remote (trimExt text) = RemoteOutcome.crashed) :
    (translateText remote c text).text = text
    ∧ (translateText remote c text).err = none
    ∧ (translateText remote c text).cache = c.set text text
    ∧ (translateText remote c text).cache.get text = some text := by
  rw [translateText_remoteFault h1 h2 h3 h4 h5 h6]
  exact ⟨rfl, rfl, rfl, get_set_self c text text⟩

/-- Witness for C2: a remote that always panics leaves "report.txt"
unchanged and caches it to itself. -/
theorem remote_fault_contained_witness :
    (translateText remoteCrash emptyCache "report.txt").text = "report.txt"
    ∧ (translateText remoteCrash emptyCache "report.txt").cache.get "report.txt"
        = some "report.txt" :=
  ⟨(remote_fault_contained remoteCrash emptyCache "report.txt"
      rfl rfl rfl (by decide) (by decide) (Or.inr rfl)).1,
   (remote_fault_contained remoteCrash emptyCache "report.txt"
      rfl rfl rfl (by decide) (by decide) (Or.inr rfl)).2.2.2⟩

/-- C3 counterexample: the stem of "xyz123" contains the letters x, y, z,
so resolution from the empty cache does invoke the remote collaborator
(with "xyz123") and returns whatever the remote answered rather than
"xyz123" unchanged. -/
theorem xyz123_reaches_remote :
    (translateText remoteAbc emptyCache "xyz123").remoteCalls = ["xyz123"]
    ∧ (translateText remoteAbc emptyCache "xyz123").text = "abc" := by
  exact ⟨rfl, rfl⟩

/-- C3 amended: resolving a name whose stem truly has no alphabetic
character, such as "12345" (empty cache, not in the static dictionary),
returns it unchanged, caches it to itself, and never invokes the remote
collaborator. -/
theorem letterless_name_skips_remote (remote : String → RemoteOutcome) :
    translateText remote emptyCache "12345" =
      ⟨"12345", none, translationCache.set emptyCache "12345" "12345",
       [], 1⟩ := by
  exact rfl

/-- Witness for the amended C3, at a concrete remote collaborator. -/
theorem letterless_name_skips_remote_witness :
    translateText remoteAbc emptyCache "12345" =
      ⟨"12345", none, translationCache.set emptyCache "12345" "12345",
       [], 1⟩ :=
  letterless_name_skips_remote remoteAbc

/-- C7: resolving the same name twice sequentially yields the same
translation both times; the second call is a cache hit that consults
neither the static dictionary nor the remote collaborator and leaves the
cache unchanged; across both calls the remote is invoked at most once; and
a value already cached for the name is returned as-is, never overwritten. -/
theorem resolve_idempotent (remote : String → RemoteOutcome)
    (c : translationCache) (text : String) :
    (translateText remote (translateText remote c text).cache text).text
        = (translateText remote c text).text
    ∧ (translateText remote (translateText remote c text).cache text).cache
        = (translateText remote c text).cache
    ∧ (translateText remote (translateText remote c text).cache text).remoteCalls
        = []
    ∧ (translateText remote (translateText remote c text).cache text).dictQueries
        = 0
    ∧ (translateText remote c text).remoteCalls.length ≤ 1
    ∧ (∀ v, c.get text = some v →
        (translateText remote c text).text = v
        ∧ (translateText remote c text).cache = c) := by
  have hsecond := @translateText_cacheHit remote
    (translateText remote c text).cache text (translateText remote c text).text
    (translateText_caches remote c text)
  refine ⟨?_, ?_, ?_, ?_, ?_, ?_⟩
  · rw [hsecond]
  · rw [hsecond]
  · rw [hsecond]
  · rw [hsecond]
  · rcases remoteCalls_spec remote c text with h | h <;> simp [h]
  · intro v hv
    rw [translateText_cacheHit hv]
    exact ⟨rfl, rfl⟩

/-- Witness for C7: after resolving "report.txt" once, the second
resolution returns the same "rapport.txt" with no remote call; and a cache
that already binds the name returns the bound value unchanged. -/
theorem resolve_idempotent_witness :
    (translateText remoteRapport
        (translateText remoteRapport emptyCache "report.txt").cache
        "report.txt").text = "rapport.txt"
    ∧ (translateText remoteRapport
        (translateText remoteRapport emptyCache "report.txt").cache
        "report.txt").remoteCalls = []
    ∧ (translateText remoteRapport cacheHome "report.txt").text
        = "rapport.txt" := by
  have h := resolve_idempotent remoteRapport emptyCache "report.txt"
  have h2 := (resolve_idempotent remoteRapport cacheHome "report.txt").2.2.2.2.2
    "rapport.txt" rfl
  refine ⟨?_, h.2.2.1, h2.1⟩
  rw [h.1]
  decide

theorem applyTranslation_no_match {items : List item} {name : String}
    (translation : String) (h : ∀ it ∈ items, it.title ≠ name) :
    applyTranslation name translation items = items := by
  induction items with
  | nil => rfl
  | cons itm rest ih =>
    simp only [applyTranslation]
    rw [if_neg (h itm (List.mem_cons_self itm rest))]
    rw [ih (fun it hit => h it (List.mem_cons_of_mem itm hit))]

theorem applyTranslation_first_match (pre post : List item) (it : item)
    (name translation : String)
    (hpre : ∀ p ∈ pre, p.title ≠ name) (hit : it.title = name) :
    applyTranslation name translation (pre ++ it :: post)
      = pre ++ ({ it with
          translation := typeStrOf it.isDir ++ " → " ++ translation,
          translating := false } :: post) := by
  induction pre with
  | nil =>
    simp only [List.nil_append, applyTranslation, if_pos hit]
  | cons p rest ih =>
    simp only [List.cons_append, applyTranslation]
    rw [if_neg (hpre p (List.mem_cons_self p rest))]
    show p :: applyTranslation name translation (rest ++ it :: post) = _
    rw [ih (fun q hq => hpre q (List.mem_cons_of_mem p hq))]

/-- C6: a resolution result whose name matches no entry of the currently
displayed listing is discarded: the whole model — every entry's label,
resolving flag, path and position included — is unchanged and no job is
dispatched. -/
theorem stale_translation_dropped (fs : Fs) (c : translationCache)
    (m : model) (name translation : String)
    (h : ∀ it ∈ m.list.items, it.title ≠ name) :
    update fs c m (Msg.translationMsg name translation) = (m, []) := by
  simp only [update, applyTranslation_no_match translation h]

/-- Witness for C6: a result for a name absent from the `/home` listing
leaves the model untouched. -/
theorem stale_translation_dropped_witness :
    update fsHome cacheHome modelHome
      (Msg.translationMsg "missing.bin" "binaire manquant")
      = (modelHome, []) :=
  stale_translation_dropped fsHome cacheHome modelHome "missing.bin"
    "binaire manquant" (by decide)

/-- C9: a resolution result that matches the current listing modifies
exactly the first entry (in display order) whose name equals the event's
name, and only its displayed translation text and resolving flag; its name,
path and directory flag, every other entry, the current path, the mode and
the status message are unchanged, and no job is dispatched. -/
theorem translation_applied_to_first_match (fs : Fs) (c : translationCache)
    (m : model) (pre post : List item) (it : item) (name translation : String)
    (hpre : ∀ p ∈ pre, p.title ≠ name) (hit : it.title = name)
    (hitems : m.list.items = pre ++ it :: post) :
    update fs c m (Msg.translationMsg name translation) =
      ({ m with list := { m.list with items :=
          pre ++ ({ it with
            translation := typeStrOf it.isDir ++ " → " ++ translation,
            translating := false } :: post) } }, []) := by
  simp only [update, hitems,
    applyTranslation_first_match pre post it name translation hpre hit]

/-- Witness for C9: a result for "src" updates only the second entry of
the `/home` listing, leaving the first entry and all other fields alone. -/
theorem translation_applied_to_first_match_witness :
    update fsHome cacheHome modelHome (Msg.translationMsg "src" "la source") =
      ({ modelHome with list := { modelHome.list with items :=
          [itemReport] ++ ({ itemSrc with
            translation := typeStrOf itemSrc.isDir ++ " → " ++ "la source",
            translating := false } :: []) } }, []) :=
  translation_applied_to_first_match fsHome cacheHome modelHome
    [itemReport] [] itemSrc "src" "la source" (by decide) rfl rfl

/-- C5: in browsing mode, confirming the selected entry with no usable
cached translation (absent, which the cache reports as the empty string, or
identical to the entry's name) sets the no-translation status and stays
browsing; otherwise the machine moves to the rename-confirmation mode
carrying the entry and its cached translation as the proposed name,
pre-filled into the focused input field. -/
theorem browsing_enter_transition (fs : Fs) (c : translationCache)
    (m : model) (it : item)
    (hmode : m.mode = viewMode.normalMode)
    (hsel : m.list.selectedItem = some it) :
    ((c.get it.title).getD "" = "" ∨ (c.get it.title).getD "" = it.title →
      update fs c m (Msg.keyMsg "enter") =
        ({ m with statusMessage := "✗ Pas de traduction disponible" }, []))
    ∧ (¬ ((c.get it.title).getD "" = "" ∨ (c.get it.title).getD "" = it.title) →
      update fs c m (Msg.keyMsg "enter") =
        ({ m with
            mode := viewMode.confirmRenameMode,
            itemToRename := it,
            proposedName := (c.get it.title).getD "",
            confirmInput := (c.get it.title).getD "",
            confirmFocused := true,
            statusMessage := "" }, [Cmd.blink])) := by
  constructor
  · intro h
    simp only [update, hmode, hsel]
    rw [if_pos h]
    simp
  · intro h
    simp only [update, hmode, hsel]
    rw [if_neg h]
    simp

/-- Witness for C5: with "rapport.txt" cached for the selected entry the
machine enters rename confirmation with the input pre-filled; with an empty
cache it reports that no translation is available and stays browsing. -/
theorem browsing_enter_transition_witness :
    update fsHome cacheHome modelHome (Msg.keyMsg "enter") =
      ({ modelHome with
          mode := viewMode.confirmRenameMode,
          itemToRename := itemReport,
          proposedName := "rapport.txt",
          confirmInput := "rapport.txt",
          confirmFocused := true,
          statusMessage := "" }, [Cmd.blink])
    ∧ update fsHome emptyCache modelHome (Msg.keyMsg "enter") =
      ({ modelHome with
          statusMessage := "✗ Pas de traduction disponible" }, []) := by
  constructor
  · have h := (browsing_enter_transition fsHome cacheHome modelHome itemReport
      rfl rfl).2 (by decide)
    rw [h]
    decide
  · have h := (browsing_enter_transition fsHome emptyCache modelHome itemReport
      rfl rfl).1 (by decide)
    rw [h]

/-- C10: in browsing mode, confirm (enter) or navigate-into (right) with no
selected entry leaves the model unchanged and dispatches no job; and
navigate-into on a selected non-directory entry likewise leaves the model
unchanged. -/
theorem no_selection_noop (fs : Fs) (c : translationCache) (m : model)
    (hmode : m.mode = viewMode.normalMode) :
    (m.list.selectedItem = none →
      update fs c m (Msg.keyMsg "enter") = (m, [])
      ∧ update fs c m (Msg.keyMsg "right") = (m, []))
    ∧ (∀ it, m.list.selectedItem = some it → it.isDir = false →
      update fs c m (Msg.keyMsg "right") = (m, [])) := by
  constructor
  · intro hsel
    constructor
    · simp only [update, hmode, hsel]
      simp
    · simp only [update, hmode, hsel]
      simp
  · intro it hsel hdir
    simp only [update, hmode, hsel]
    simp [hdir]

/-- Witness for C10: on an empty listing, enter and right are no-ops; on a
selected file, right is a no-op. -/
theorem no_selection_noop_witness :
    update fsHome cacheHome modelEmpty (Msg.keyMsg "enter") = (modelEmpty, [])
    ∧ update fsHome cacheHome modelEmpty (Msg.keyMsg "right") = (modelEmpty, [])
    ∧ update fsHome cacheHome modelFileSel (Msg.keyMsg "right")
        = (modelFileSel, []) := by
  have h1 := (no_selection_noop fsHome cacheHome modelEmpty rfl).1 (by decide)
  have h2 := (no_selection_noop fsHome cacheHome modelFileSel rfl).2 itemReport
    (by decide) rfl
  exact ⟨h1.1, h1.2, h2⟩

/-- C8 counterexample: navigating to an unreadable directory yields the
empty listing, but the status message is cleared rather than set to an
error: no listing fault is ever surfaced as a status message. -/
theorem unreadable_dir_counterexample :
    (navigateToDirectory fsNone cacheHome modelHome "/locked").1.list.items = []
    ∧ (navigateToDirectory fsNone cacheHome modelHome "/locked").1.statusMessage
        = ""
    ∧ (navigateToDirectory fsNone cacheHome modelHome "/locked").2 = [] := by
  decide

/-- C8 amended: listing an unreadable directory produces empty entries and
no pending jobs, and navigating there yields an empty listing with the
status message cleared — no error status is shown. -/
theorem unreadable_dir_spec (fs : Fs) (c : translationCache) (m : model)
    (path : String) (h : fs path = none) :
    getDirectoryItems fs c path = ([], [])
    ∧ navigateToDirectory fs c m path =
        ({ m with
            currentPath := path,
            list := { items := [], cursor := 0,
                      title := "Navigateur de fichiers - " ++ path },
            statusMessage := "" }, []) := by
  have hg : getDirectoryItems fs c path = ([], []) := by
    unfold getDirectoryItems
    rw [h]
  refine ⟨hg, ?_⟩
  unfold navigateToDirectory
  rw [hg]

/-- Witness for the amended C8, at a concrete unreadable filesystem. -/
theorem unreadable_dir_spec_witness :
    navigateToDirectory fsNone cacheHome modelHome "/locked" =
      ({ modelHome with
          currentPath := "/locked",
          list := { items := [], cursor := 0,
                    title := "Navigateur de fichiers - /locked" },
          statusMessage := "" }, []) := by
  have h := (unreadable_dir_spec fsNone cacheHome modelHome "/locked" rfl).2
  rw [h]
  decide

/-- C4 (code bug): evaluating the rename-result handler shows that both
outcomes return to browsing and that a failed rename keeps the listing and
shows the failure detail, but on success the success status written by the
handler is immediately cleared by the directory refresh
(`navigateToDirectory` sets the status message to the empty string), so the
resulting state shows no success status. -/
theorem rename_result_evaluation :
    (update fsHome cacheHome modelConfirm
      (Msg.renameCompleteMsg "/home/report.txt" "/home/rapport.txt" true "")).1.mode
      = viewMode.normalMode
    ∧ (update fsHome cacheHome modelConfirm
      (Msg.renameCompleteMsg "/home/report.txt" "/home/rapport.txt" true "")).1.list.items
      = (getDirectoryItems fsHome cacheHome "/home").1
    ∧ (update fsHome cacheHome modelConfirm
      (Msg.renameCompleteMsg "/home/report.txt" "/home/rapport.txt" true "")).1.statusMessage
      = ""
    ∧ (update fsHome cacheHome modelConfirm
      (Msg.renameCompleteMsg "/home/report.txt" "/x/y" false "permission denied")).1.mode
      = viewMode.normalMode
    ∧ (update fsHome cacheHome modelConfirm
      (Msg.renameCompleteMsg "/home/report.txt" "/x/y" false "permission denied")).1.statusMessage
      = "✗ Erreur: permission denied"
    ∧ (update fsHome cacheHome modelConfirm
      (Msg.renameCompleteMsg "/home/report.txt" "/x/y" false "permission denied")).1.list.items
      = modelConfirm.list.items := by
  decide

end OneHWhack
